import Mathlib

/-!
# Verification of the openapi-enforcer-lambda request/response adapter

A shallow embedding of the core of `openapi-enforcer-lambda` (the AWS-Lambda
adapter for the `openapi-enforcer` contract engine), translated from
`src/app/index.ts`.  JavaScript objects (`Record<string, V>`) are modelled as
association lists with unique keys in insertion order; assignment
`obj[key] = v` is modelled by `jsSet`, which overwrites an existing key in
place and otherwise appends, matching JS object insertion-order semantics.
External builtins (`JSON.parse`, `querystring.parse`) are parameters of the
definitions that use them; `JSON.stringify` and `encodeURIComponent` are
modelled concretely.
-/

namespace EnforcerLambda

/-- First-match lookup in an association list, the model of reading `obj[key]`
on a JavaScript object (`none` models `undefined`). -/
def alookup {V : Type} : List (String × V) → String → Option V
  | [], _ => none
  | p :: rest, k => if p.1 = k then some p.2 else alookup rest k

/-- The keys of an association list, in insertion order. -/
def akeys {V : Type} (m : List (String × V)) : List String :=
  m.map (·.1)

/-- Model of the JavaScript assignment `obj[key] = v`: if the key is already
present its value is replaced in place (insertion order kept), otherwise the
pair is appended at the end. -/
def jsSet {V : Type} (m : List (String × V)) (k : String) (v : V) : List (String × V) :=
  if (alookup m k).isSome then
    m.map (fun p => if p.1 = k then (p.1, v) else p)
  else
    m ++ [(k, v)]

/-- A value of the TypeScript type `string | string[] | undefined`, the value
type of `MergedParameters`. -/
inductive ParamValue where
  | str (s : String)
  | list (l : List String)
  | undefined
deriving DecidableEq, Repr

/-- Injection of a `string | undefined` JS value into `MergedParameters`
values, as happens when `merged[key] = singles[key]` assigns across the two
TypeScript types. -/
def ofSingle : Option String → ParamValue
  | some s => .str s
  | none => .undefined

/-- Injection of a `string[] | undefined` JS value into `MergedParameters`
values, as happens when `merged[key] = multis[key]`. -/
def ofMulti : Option (List String) → ParamValue
  | some l => .list l
  | none => .undefined

/-- `mergeMultiValueParameters` from `src/app/index.ts`: starts from an empty
object, copies every key of `singles` in order, then copies every key of
`multis` in order (overwriting same-named keys from `singles`). -/
def mergeMultiValueParameters (singles : List (String × Option String))
    (multis : List (String × Option (List String))) : List (String × ParamValue) :=
  let merged := singles.foldl (fun acc p => jsSet acc p.1 (ofSingle p.2)) []
  multis.foldl (fun acc p => jsSet acc p.1 (ofMulti p.2)) merged

/-- One iteration of the `forEach` in `splitMultiValueParameters`: a
`string`-typed value goes to the `singles` output, an array value goes to the
`multis` output, and any other value (i.e. `undefined`) goes to neither. -/
def splitStep (acc : List (String × String) × List (String × List String))
    (p : String × ParamValue) : List (String × String) × List (String × List String) :=
  match p.2 with
  | .str s => (jsSet acc.1 p.1 s, acc.2)
  | .list l => (acc.1, jsSet acc.2 p.1 l)
  | .undefined => acc

/-- `splitMultiValueParameters` from `src/app/index.ts`: walks the keys of the
merged mapping in order, partitioning by the runtime shape of each value. -/
def splitMultiValueParameters (data : List (String × ParamValue)) :
    List (String × String) × List (String × List String) :=
  data.foldl splitStep ([], [])

/-- View a `Record<string, string>` as a `Record<string, string | undefined>`
(TypeScript subtyping, needed to feed `split` outputs back into `merge`). -/
def toSingles (l : List (String × String)) : List (String × Option String) :=
  l.map (fun p => (p.1, some p.2))

/-- View a `Record<string, string[]>` as a `Record<string, string[] | undefined>`. -/
def toMultis (l : List (String × List String)) : List (String × Option (List String)) :=
  l.map (fun p => (p.1, some p.2))

/-! ## encodeURIComponent

Model of the JavaScript builtin: every character outside the unreserved set
`A-Z a-z 0-9 - _ . ! ~ * ' ( )` is replaced by the uppercase percent-encoding
of its UTF-8 bytes. -/

/-- Uppercase hexadecimal digit for a nibble. -/
def hexDigitUpper (n : Nat) : Char :=
  if n < 10 then Char.ofNat (48 + n) else Char.ofNat (55 + n)

/-- The UTF-8 bytes of a character. -/
def utf8Bytes (c : Char) : List Nat :=
  let n := c.toNat
  if n < 0x80 then [n]
  else if n < 0x800 then [0xC0 + n / 64, 0x80 + n % 64]
  else if n < 0x10000 then [0xE0 + n / 4096, 0x80 + (n / 64) % 64, 0x80 + n % 64]
  else [0xF0 + n / 262144, 0x80 + (n / 4096) % 64, 0x80 + (n / 64) % 64, 0x80 + n % 64]

/-- Characters `encodeURIComponent` leaves unescaped (`Char.ofNat 39` is the
apostrophe). -/
def isUriUnreserved (c : Char) : Bool :=
  c.isAlpha || c.isDigit || c == '-' || c == '_' || c == '.' || c == '!' ||
    c == '~' || c == '*' || c == Char.ofNat 39 || c == '(' || c == ')'

/-- Percent-encoding of one byte, e.g. `37 ↦ "%25"`. -/
def percentEncodeByte (b : Nat) : String :=
  "%" ++ String.singleton (hexDigitUpper (b / 16)) ++ String.singleton (hexDigitUpper (b % 16))

/-- Model of the JavaScript builtin `encodeURIComponent`. -/
def encodeURIComponent (s : String) : String :=
  String.join (s.data.map (fun c =>
    if isUriUnreserved c then String.singleton c
    else String.join ((utf8Bytes c).map percentEncodeByte)))

/-! ## Query-string reconstruction (`initialize`, lines 355-379)

The event's `queryStringParameters` (`Record<string, string | undefined> | null`)
and `multiValueQueryStringParameters` (`Record<string, string[] | undefined> | null`)
are folded into one `qsMap : Record<string, string[]>`; `hasQs` becomes true
exactly when one of the two `forEach` bodies runs at least once.  `Option` is
`null` at the outer level and `undefined` at the value level.  The parallel
`query` object built for `req.query` by the same loops (it does not influence
the serialized query string) is modelled separately by `queryFoldSingle` /
`queryFoldMulti` below. -/

/-- The first `forEach` loop of `initialize`: every single-valued entry is
written into `qsMap` as a one-element array (`qsParams[key] ?? ''`), setting
`hasQs`. -/
def qsFoldSingle (params : List (String × Option String))
    (acc : List (String × List String) × Bool) : List (String × List String) × Bool :=
  params.foldl (fun a p => (jsSet a.1 p.1 [p.2.getD ""], true)) acc

/-- The second `forEach` loop of `initialize`: every multi-valued entry
overwrites `qsMap[key]` with its array (`qsParams[key] ?? ['']`), setting
`hasQs`. -/
def qsFoldMulti (params : List (String × Option (List String)))
    (acc : List (String × List String) × Bool) : List (String × List String) × Bool :=
  params.foldl (fun a p => (jsSet a.1 p.1 (p.2.getD [""]), true)) acc

/-- The query string appended to `event.path` before calling
`openapi.request`: when `hasQs`, `'?' + keys(qsMap).map(key =>
qsMap[key].map(v => encodeURIComponent(v)).join('&')).join('&')` — note that
the inner map produces only the encoded values, with no `key=` prefix. -/
def buildQueryString (single : Option (List (String × Option String)))
    (multi : Option (List (String × Option (List String)))) : String :=
  let s1 := match single with
    | none => (([] : List (String × List String)), false)
    | some qsParams => qsFoldSingle qsParams ([], false)
  let s2 := match multi with
    | none => s1
    | some qsParams => qsFoldMulti qsParams s1
  if s2.2 then
    "?" ++ String.intercalate "&"
      (s2.1.map (fun p => String.intercalate "&" (p.2.map encodeURIComponent)))
  else ""

/-- The `query[key] = qsParams[key] ?? ''` assignments of the first `forEach`
loop of `initialize` (line 363), building the merged `query` object exposed as
`req.query`. -/
def queryFoldSingle (params : List (String × Option String))
    (acc : List (String × ParamValue)) : List (String × ParamValue) :=
  params.foldl (fun a p => jsSet a p.1 (ParamValue.str (p.2.getD ""))) acc

/-- The `query[key] = qsParams[key] ?? ['']` assignments of the second
`forEach` loop of `initialize` (line 371), overwriting same-named keys from
the single-valued view. -/
def queryFoldMulti (params : List (String × Option (List String)))
    (acc : List (String × ParamValue)) : List (String × ParamValue) :=
  params.foldl (fun a p => jsSet a p.1 (ParamValue.list (p.2.getD [""]))) acc

/-! ## JSON serialization (model of the `JSON.stringify` builtin) -/

/-- A JavaScript JSON value (`JSON.parse` results, object bodies). -/
inductive Json where
  | null
  | bool (b : Bool)
  | num (n : Int)
  | str (s : String)
  | arr (xs : List Json)
  | obj (fields : List (String × Json))

/-- JSON string escaping for quote and backslash (control-character escapes
are not exercised by any theorem below). -/
def jsonEscapeChar (c : Char) : String :=
  if c == '"' then "\\\""
  else if c == '\\' then "\\\\"
  else String.singleton c

/-- Escape the characters of a string for a JSON string literal. -/
def jsonEscape (s : String) : String :=
  String.join (s.data.map jsonEscapeChar)

mutual

/-- Model of the JavaScript builtin `JSON.stringify`. -/
def jsonStringify : Json → String
  | .null => "null"
  | .bool b => cond b "true" "false"
  | .num n => toString n
  | .str s => "\"" ++ jsonEscape s ++ "\""
  | .arr xs => "[" ++ String.intercalate "," (jsonStringifyArr xs) ++ "]"
  | .obj fs => "\x7b" ++ String.intercalate "," (jsonStringifyObj fs) ++ "\x7d"

/-- Serialized elements of a JSON array. -/
def jsonStringifyArr : List Json → List String
  | [] => []
  | x :: xs => jsonStringify x :: jsonStringifyArr xs

/-- Serialized `"key":value` members of a JSON object. -/
def jsonStringifyObj : List (String × Json) → List String
  | [] => []
  | f :: fs => ("\"" ++ jsonEscape f.1 ++ "\":" ++ jsonStringify f.2) :: jsonStringifyObj fs

end

/-! ## Response collector (`initialize`, lines 381-388 and 441-483) -/

/-- A header value of the TypeScript type `string | number | boolean`. -/
inductive HVal where
  | str (s : String)
  | num (n : Int)
  | bool (b : Bool)
deriving DecidableEq, Repr

/-- A value passed to `res.send` / `res.cookie`, of the TypeScript type
`string | object`. -/
inductive SendVal where
  | str (s : String)
  | obj (j : Json)

/-- The `ResponseResult` accumulator of `src/app/index.ts`.  `body : Option
SendVal` models `string | object | undefined` (with `none` for `undefined`);
`multiValueHeaders` values are the pushed `set-cookie` strings (the only
writer, `res.cookie`, pushes strings). -/
structure ResponseResult where
  statusCode : Nat
  headers : List (String × HVal)
  isBase64Encoded : Bool
  multiValueHeaders : List (String × List String)
  body : Option SendVal

/-- The accumulator constructed at the start of `initialize`:
`{ statusCode: 200, headers: {}, isBase64Encoded: false, multiValueHeaders: {}, body: undefined }`. -/
def initialResponseResult : ResponseResult :=
  { statusCode := 200, headers := [], isBase64Encoded := false,
    multiValueHeaders := [], body := none }

/-- `res.send(data?)`: `if (arguments.length > 0) result.body = data`.  The
outer `Option` is whether any argument was passed at all; the inner
`Option SendVal` is the argument itself, with `none` for an explicit
`undefined`. -/
def sendCall (r : ResponseResult) (arg : Option (Option SendVal)) : ResponseResult :=
  match arg with
  | none => r
  | some data => { r with body := data }

/-- `res.set(header, value)`: `result.headers[header] = value`. -/
def setCall (r : ResponseResult) (header : String) (value : HVal) : ResponseResult :=
  { r with headers := jsSet r.headers header value }

/-- `res.status(code)`: `result.statusCode = code`. -/
def statusCall (r : ResponseResult) (code : Nat) : ResponseResult :=
  { r with statusCode := code }

/-- `res.get(header)`: `result.headers?.[header]`. -/
def getCall (r : ResponseResult) (header : String) : Option HVal :=
  alookup r.headers header

/-- `res.redirect(location, code?)`: `this.status(code ?? 302).set('location', location)`. -/
def redirectCall (r : ResponseResult) (location : String) (code : Option Nat) : ResponseResult :=
  setCall (statusCall r (code.getD 302)) "location" (.str location)

/-! ## Cookies (`initialize`, lines 442-464) -/

/-- The `CookieOptions` interface.  `expires` is the `Date` value already
rendered by `toUTCString`; `encode` is the pluggable value encoder. -/
structure CookieOptions where
  domain : Option String := none
  encode : Option (String → String) := none
  expires : Option String := none
  httpOnly : Option Bool := none
  maxAge : Option Int := none
  path : Option String := none
  secure : Option Bool := none
  signed : Option Bool := none
  sameSite : Option String := none

/-- `Math.round(maxAge / 1000)` on an integral millisecond count:
`Math.round x = ⌊x + 1/2⌋`, so this is `⌊(2·ms + 1000) / 2000⌋`. -/
def jsRoundDiv1000 (ms : Int) : Int :=
  Int.fdiv (2 * ms + 1000) 2000

/-- The string pushed onto `result.multiValueHeaders['set-cookie']` by
`res.cookie`: `name + ':' + valueString + '; path=' + ...` (note the colon
between name and value). -/
def cookieHeaderString (name valueString : String) (opts : CookieOptions) : String :=
  name ++ ":" ++ valueString ++
  "; path=" ++ (match opts.path with | some p => p | none => "/") ++
  (match opts.domain with | some d => "; domain=" ++ d | none => "") ++
  (match opts.maxAge with | some ms => "; max-age=" ++ toString (jsRoundDiv1000 ms) | none => "") ++
  (match opts.expires with | some e => "; expires=" ++ e | none => "") ++
  (if opts.secure = some true then "; secure" else "") ++
  (match opts.sameSite with | some s => "; samesite=" ++ s | none => "")

/-- `res.cookie(name, value, options?)` acting on `result.multiValueHeaders`:
ensures the `set-cookie` list exists, encodes the value (string as-is, object
via `JSON.stringify`) with `options.encode ?? encodeURIComponent`, and pushes
the serialized cookie entry. -/
def cookieCall (mv : List (String × List String)) (name : String) (value : SendVal)
    (options : Option CookieOptions) : List (String × List String) :=
  let opts := options.getD {}
  let encode := opts.encode.getD encodeURIComponent
  let mv1 := if (alookup mv "set-cookie").isSome then mv else jsSet mv "set-cookie" []
  let valueString := encode (match value with | .str s => s | .obj j => jsonStringify j)
  jsSet mv1 "set-cookie"
    ((alookup mv1 "set-cookie").getD [] ++ [cookieHeaderString name valueString opts])

/-- Whether the character list `lead` is an initial segment of `cs`. -/
def charsLeadWith : List Char → List Char → Bool
  | [], _ => true
  | _ :: _, [] => false
  | c :: cs, d :: ds => c == d && charsLeadWith cs ds

/-- Model of the JavaScript builtin `String.prototype.startsWith`:
`jsStartsWith s p` is true when `p` is an initial segment of `s`. -/
def jsStartsWith (s searchString : String) : Bool :=
  charsLeadWith searchString.data s.data

/-- `res.clearCookie(name)` acting on `result.multiValueHeaders`: if a
`set-cookie` list exists, `findIndex(v => v.startsWith(name + '='))` and
`splice(index, 1)` when found. -/
def clearCookieCall (mv : List (String × List String)) (name : String) :
    List (String × List String) :=
  match alookup mv "set-cookie" with
  | none => mv
  | some entries =>
    match entries.findIdx? (fun v => jsStartsWith v (name ++ "=")) with
    | none => mv
    | some i => jsSet mv "set-cookie" (entries.eraseIdx i)

/-! ## Errors and the outer invocation boundary -/

/-- The errors that can be thrown inside a handler- or route-produced lambda:
`EnforcerStatusError` (with numeric status code), `EnforcerRouterError`
(with string code), or any other thrown error. -/
inductive Err where
  | statusError (code : Nat) (message : String)
  | routerError (code : String) (message : String)
  | other (message : String)
deriving DecidableEq, Repr

/-- The `toString` methods: `EnforcerStatusError` renders
`` `StatusError ${code}: ${message}` ``, `EnforcerRouterError` renders
`'RouteError ' + code + ': ' + message`, and a plain error its message. -/
def errToString : Err → String
  | .statusError c m => "StatusError " ++ toString c ++ ": " ++ m
  | .routerError c m => "RouteError " ++ c ++ ": " ++ m
  | .other m => m

/-- The final `LambdaResult` shape (`APIGatewayProxyResult`): status code,
single-valued headers, base64 flag, multi-valued headers, body string. -/
structure LambdaResultM where
  statusCode : Nat
  headers : List (String × HVal)
  isBase64Encoded : Bool
  multiValueHeaders : List (String × List String)
  body : String

/-- `sendErrorResponse` from `src/app/index.ts`: an `EnforcerStatusError`
yields its own code and `toString()` body; anything else yields 500 with the
fixed body `'Internal server error'`.  Both branches carry the header map
`{ content: 'text/plain' }`, empty multi-valued headers, and
`isBase64Encoded: false`.  (The `console.log` guarded by `logErrors` is I/O
and not modelled.) -/
def sendErrorResponse (e : Err) : LambdaResultM :=
  match e with
  | .statusError c m =>
    { statusCode := c, headers := [("content", .str "text/plain")],
      isBase64Encoded := false, multiValueHeaders := [],
      body := errToString (.statusError c m) }
  | _ =>
    { statusCode := 500, headers := [("content", .str "text/plain")],
      isBase64Encoded := false, multiValueHeaders := [],
      body := "Internal server error" }

/-- `result.body === undefined ? '' : typeof result.body === 'object' ?
JSON.stringify(result.body) : result.body`. -/
def serializeResultBody : Option SendVal → String
  | none => ""
  | some (.obj j) => jsonStringify j
  | some (.str s) => s

/-- `sendValidResponse` from `src/app/index.ts`.  The engine's bound
outbound-validation function (`req.response`) is modelled as a function from
the collected status/body/headers to either an error message (the engine
error's `toString()`) or the normalized response headers.  On error it throws
`EnforcerStatusError(500, 'Invalid response: ' + message)`; on success it
builds the result from the accumulator (headers from the engine's normalized
response). -/
def sendValidResponse
    (responseProcessor : Nat → Option SendVal → List (String × HVal) →
      Except String (List (String × HVal)))
    (result : ResponseResult) : Except Err LambdaResultM :=
  match responseProcessor result.statusCode result.body result.headers with
  | .error message => .error (.statusError 500 ("Invalid response: " ++ message))
  | .ok responseHeaders =>
    .ok { statusCode := result.statusCode, headers := responseHeaders,
          isBase64Encoded := false, multiValueHeaders := result.multiValueHeaders,
          body := serializeResultBody result.body }

/-- The lambda function produced by `enforcerLambda(...).handler(handler)`:
`initialize` (which may throw), then the business handler (modelled by its
effect on the accumulator, which may throw), then `sendValidResponse`; any
thrown error is caught once by the surrounding `try/catch` and converted by
`sendErrorResponse`.  The second component counts how many times the business
handler ran. -/
def handlerInvoke (init : Except Err ResponseResult)
    (business : ResponseResult → Except Err ResponseResult)
    (responseProcessor : Nat → Option SendVal → List (String × HVal) →
      Except String (List (String × HVal))) : LambdaResultM × Nat :=
  match init with
  | .error e => (sendErrorResponse e, 0)
  | .ok r0 =>
    match business r0 with
    | .error e => (sendErrorResponse e, 1)
    | .ok r1 =>
      match sendValidResponse responseProcessor r1 with
      | .error e => (sendErrorResponse e, 1)
      | .ok res => (res, 1)

/-! ## Router resolution (`route`, lines 141-181) -/

/-- The cached registration for one operation handle (source structure
`OperationsMapData`). -/
structure OperationsMapData where
  xController : String
  xOperation : String
  processed : Bool
deriving DecidableEq, Repr

/-- A matched operation handle: its own properties, its `operationId`, and
the property maps of its ancestor chain (`node.enforcerData.parent.result`
links, ending at a node whose parent resolves to `null`). -/
structure OperationModel where
  props : List (String × String)
  operationId : Option String
  ancestors : List (List (String × String))

/-- The `while (node !== null)` walk: the first node in the chain carrying
the controller-name key wins (`if (xController in node) { ... break }`). -/
def findControllerInChain (xControllerKey : String) :
    List (List (String × String)) → Option String
  | [] => none
  | node :: rest =>
    match alookup node xControllerKey with
    | some v => some v
    | none => findControllerInChain xControllerKey rest

/-- The cache-refresh step of `route` (lines 148-161): when the registration
is not yet processed, set `xOperation` from
`operation[xOperation] ?? operation.operationId ?? ''` and `xController` from
the ancestor-chain walk (keeping the previous value when the walk exhausts).
The `processed` field is never assigned anywhere in the source. -/
def resolveRegistration (xOperationKey xControllerKey : String) (op : OperationModel)
    (registered : OperationsMapData) : OperationsMapData :=
  if registered.processed then registered
  else
    { xOperation := (alookup op.props xOperationKey).getD (op.operationId.getD ""),
      xController :=
        (findControllerInChain xControllerKey (op.props :: op.ancestors)).getD
          registered.xController,
      processed := registered.processed }

/-! ## Body decoding and the request descriptor (`initialize`, lines 390-424) -/

/-- ASCII lowercasing of one character, for the case-insensitive regex
`/^content-type$/i`. -/
def asciiLowerChar (c : Char) : Char :=
  if c.isUpper then Char.ofNat (c.toNat + 32) else c

/-- Model of `rxContentType.test(v)` where `rxContentType =
/^content-type$/i`: the key matches the whole pattern case-insensitively. -/
def matchesContentTypeKey (k : String) : Bool :=
  k.data.map asciiLowerChar == "content-type".data

/-- `getContentTypeFromHeaders`: scan the header keys for the first matching
`/^content-type$/i` and return its value.  The event headers have type
`Record<string, string | undefined>`, so the `Array.isArray` branch of the
source is unreachable here and the value is returned as-is. -/
def getContentTypeFromHeaders (headers : Option (List (String × Option String))) :
    Option String :=
  match headers with
  | none => none
  | some hs =>
    match hs.find? (fun p => matchesContentTypeKey p.1) with
    | none => none
    | some p => p.2

/-- The body-decoding step of `initialize` (lines 390-413).  `jsonParse`
models the `JSON.parse` builtin (`none` = syntax error thrown); `qsParse`
models `querystring.parse` (total — it does not throw, so the surrounding
`catch` is dead code); `bodyParser` is the caller-supplied
`options.bodyParser` (exceptions modelled by `Except`).  The result is the
local `body` variable: `none` when no branch assigned it. -/
def parseBody (jsonParse : String → Option Json) (qsParse : String → Json)
    (bodyParser : Option (String → String → Except String Json))
    (headers : Option (List (String × Option String))) (eventBody : Option String) :
    Except Err (Option Json) :=
  match eventBody with
  | none => .ok none
  | some raw =>
    let contentType := getContentTypeFromHeaders headers
    if contentType = some "application/json" then
      match jsonParse raw with
      | some v => .ok (some v)
      | none => .error (.statusError 400 "Invalid JSON body")
    else if contentType = some "application/x-www-form-urlencoded" then
      .ok (some (qsParse raw))
    else
      match bodyParser with
      | some bp =>
        match bp (contentType.getD "") raw with
        | .ok v => .ok (some v)
        | .error msg => .error (.statusError 400 msg)
      | none => .ok none

/-- The descriptor handed to the contract engine's `request(...)` call. -/
structure RequestDescriptor where
  method : String
  path : String
  headers : List (String × ParamValue)
  body : Option Json

/-- Lines 419-424: `openapi.request({ method, path: event.path + queryString,
headers, ...(body !== undefined ? { body } : {}) }, requestOptions)` — the
body field is present exactly when the `body` variable was assigned. -/
def makeRequestDescriptor (method eventPath queryString : String)
    (headers : List (String × ParamValue)) (body : Option Json) : RequestDescriptor :=
  { method := method, path := eventPath ++ queryString, headers := headers, body := body }

/-! ## Lemmas about the JS-object model -/

theorem alookup_append {V : Type} (m₁ m₂ : List (String × V)) (k : String) :
    alookup (m₁ ++ m₂) k = ((alookup m₁ k).orElse (fun _ => alookup m₂ k)) := by
  induction m₁ with
  | nil => simp [alookup]
  | cons p rest ih =>
    by_cases h : p.1 = k <;> simp [alookup, h, ih, Option.orElse]

theorem alookup_isSome_iff {V : Type} (m : List (String × V)) (k : String) :
    (alookup m k).isSome ↔ k ∈ akeys m := by
  induction m with
  | nil => simp [alookup, akeys]
  | cons p rest ih =>
    by_cases h : p.1 = k
    · subst h; simp [alookup, akeys]
    · have h2 : ¬ k = p.1 := fun hc => h hc.symm
      simpa [alookup, akeys, h, h2] using ih

theorem alookup_eq_none_of_not_mem {V : Type} (m : List (String × V)) (k : String)
    (h : k ∉ akeys m) : alookup m k = none := by
  cases hcase : alookup m k with
  | none => rfl
  | some v =>
    exfalso
    exact h ((alookup_isSome_iff m k).mp (by rw [hcase]; rfl))

theorem alookup_map_replace_of_ne {V : Type} (m : List (String × V)) (k k' : String) (v : V)
    (h' : k' ≠ k) :
    alookup (m.map (fun p => if p.1 = k then (p.1, v) else p)) k' = alookup m k' := by
  induction m with
  | nil => simp [alookup]
  | cons p rest ih =>
    by_cases h : p.1 = k
    · have hne : p.1 ≠ k' := by rw [h]; exact fun hc => h' hc.symm
      simp only [List.map_cons, if_pos h, alookup, if_neg hne]
      exact ih
    · simp only [List.map_cons, if_neg h, alookup]
      by_cases hpk : p.1 = k'
      · simp [hpk]
      · rw [if_neg hpk, if_neg hpk]
        exact ih

theorem alookup_map_replace_self {V : Type} (m : List (String × V)) (k : String) (v : V)
    (hk : (alookup m k).isSome) :
    alookup (m.map (fun p => if p.1 = k then (p.1, v) else p)) k = some v := by
  induction m with
  | nil => simp [alookup] at hk
  | cons p rest ih =>
    by_cases h : p.1 = k
    · simp [List.map_cons, if_pos h, alookup, h]
    · simp only [alookup, if_neg h] at hk
      simp only [List.map_cons, if_neg h, alookup, if_neg h]
      exact ih hk

theorem alookup_jsSet {V : Type} (m : List (String × V)) (k k' : String) (v : V) :
    alookup (jsSet m k v) k' = if k' = k then some v else alookup m k' := by
  unfold jsSet
  by_cases hk : (alookup m k).isSome
  · rw [if_pos hk]
    by_cases h' : k' = k
    · subst h'; rw [if_pos rfl]; exact alookup_map_replace_self m k' v hk
    · rw [if_neg h']; exact alookup_map_replace_of_ne m k k' v h'
  · rw [if_neg hk]
    rw [alookup_append]
    by_cases h' : k' = k
    · subst h'
      have : alookup m k' = none := by
        cases hcase : alookup m k' with
        | none => rfl
        | some _ => rw [hcase] at hk; simp at hk
      simp [this, alookup, Option.orElse]
    · have h2 : ¬ k = k' := fun hc => h' hc.symm
      cases hcase : alookup m k' with
      | none => simp [hcase, Option.orElse, alookup, h', h2]
      | some w => simp [hcase, Option.orElse, h']

theorem alookup_foldl_jsSet {V W : Type} (f : V → W) (l : List (String × V))
    (hl : (akeys l).Nodup) (acc : List (String × W)) (k : String) :
    alookup (l.foldl (fun a p => jsSet a p.1 (f p.2)) acc) k
      = ((alookup l k).map f).orElse (fun _ => alookup acc k) := by
  induction l generalizing acc with
  | nil => simp [alookup, Option.orElse]
  | cons p rest ih =>
    simp only [akeys, List.map_cons, List.nodup_cons] at hl
    obtain ⟨hp, hrest⟩ := hl
    simp only [List.foldl_cons]
    rw [ih hrest]
    by_cases h : p.1 = k
    · subst h
      have hnone : alookup rest p.1 = none :=
        alookup_eq_none_of_not_mem rest p.1 (by simpa [akeys] using hp)
      rw [hnone]
      simp [alookup, alookup_jsSet, Option.orElse]
    · simp only [alookup, if_neg h]
      rw [alookup_jsSet]
      rw [if_neg (fun hc => h hc.symm)]

theorem alookup_map_value {V W : Type} (g : V → W) (l : List (String × V)) (k : String) :
    alookup (l.map (fun p => (p.1, g p.2))) k = (alookup l k).map g := by
  induction l with
  | nil => simp [alookup]
  | cons p rest ih =>
    by_cases h : p.1 = k <;> simp [alookup, h, ih]

theorem akeys_map_value {V W : Type} (g : V → W) (l : List (String × V)) :
    akeys (l.map (fun p => (p.1, g p.2))) = akeys l := by
  induction l with
  | nil => rfl
  | cons p rest ih => simp [akeys]

theorem akeys_jsSet {V : Type} (m : List (String × V)) (k : String) (v : V) :
    akeys (jsSet m k v) = if (alookup m k).isSome then akeys m else akeys m ++ [k] := by
  unfold jsSet
  by_cases h : (alookup m k).isSome
  · rw [if_pos h, if_pos h]
    simp only [akeys, List.map_map]
    apply List.map_congr_left
    intro p _
    by_cases hp : p.1 = k <;> simp [hp]
  · rw [if_neg h, if_neg h]
    simp [akeys]

theorem akeys_jsSet_nodup {V : Type} (m : List (String × V)) (k : String) (v : V)
    (h : (akeys m).Nodup) : (akeys (jsSet m k v)).Nodup := by
  rw [akeys_jsSet]
  by_cases hk : (alookup m k).isSome
  · rwa [if_pos hk]
  · rw [if_neg hk]
    have hknot : k ∉ akeys m := fun hmem => hk ((alookup_isSome_iff m k).mpr hmem)
    rw [List.nodup_append]
    exact ⟨h, List.nodup_singleton k, fun a ha hb => by
      simp only [List.mem_singleton] at hb
      exact hknot (hb ▸ ha)⟩

theorem alookup_mem {V : Type} (m : List (String × V)) (k : String) (v : V)
    (h : alookup m k = some v) : (k, v) ∈ m := by
  induction m with
  | nil => simp [alookup] at h
  | cons p rest ih =>
    obtain ⟨a, b⟩ := p
    by_cases hp : a = k
    · have hb : b = v := by simpa [alookup, hp] using h
      subst hp
      subst hb
      exact List.mem_cons_self _ _
    · have h' : alookup rest k = some v := by simpa [alookup, hp] using h
      exact List.mem_cons_of_mem _ (ih h')

/-- Full characterization of `mergeMultiValueParameters` lookups: a key found
in `multis` resolves to the multi-valued entry, otherwise to the
single-valued entry. -/
theorem alookup_mergeMultiValueParameters (singles : List (String × Option String))
    (multis : List (String × Option (List String)))
    (hs : (akeys singles).Nodup) (hm : (akeys multis).Nodup) (k : String) :
    alookup (mergeMultiValueParameters singles multis) k
      = ((alookup multis k).map ofMulti).orElse
          (fun _ => (alookup singles k).map ofSingle) := by
  unfold mergeMultiValueParameters
  rw [alookup_foldl_jsSet ofMulti multis hm _ k]
  rw [alookup_foldl_jsSet ofSingle singles hs _ k]
  cases alookup multis k with
  | some mv => simp [Option.orElse]
  | none =>
    cases alookup singles k with
    | some sv => simp [Option.orElse]
    | none => simp [Option.orElse, alookup]

/-- Lookup in the `singles` output of the split fold: a key maps to `s`
exactly when the input maps it to the string value `s` (falling back to the
accumulator for keys the input does not mention). -/
theorem split_foldl_fst_lookup (data : List (String × ParamValue))
    (hd : (akeys data).Nodup)
    (acc : List (String × String) × List (String × List String)) (k : String) :
    alookup (data.foldl splitStep acc).1 k
      = (match alookup data k with
          | some (.str s) => some s
          | _ => none).orElse (fun _ => alookup acc.1 k) := by
  induction data generalizing acc with
  | nil => simp [alookup, Option.orElse]
  | cons p rest ih =>
    simp only [akeys, List.map_cons, List.nodup_cons] at hd
    obtain ⟨hp, hrest⟩ := hd
    simp only [List.foldl_cons]
    rw [ih hrest]
    by_cases h : p.1 = k
    · subst h
      have hnone : alookup rest p.1 = none :=
        alookup_eq_none_of_not_mem rest p.1 (by simpa [akeys] using hp)
      rw [hnone]
      simp only [alookup, if_pos rfl]
      cases hv : p.2 with
      | str s => simp [splitStep, hv, alookup_jsSet, Option.orElse]
      | list l => simp [splitStep, hv, Option.orElse]
      | undefined => simp [splitStep, hv, Option.orElse]
    · simp only [alookup, if_neg h]
      have hfst : alookup (splitStep acc p).1 k = alookup acc.1 k := by
        cases hv : p.2 with
        | str s =>
          simp only [splitStep, hv]
          rw [alookup_jsSet, if_neg (fun hc => h hc.symm)]
        | list l => simp [splitStep, hv]
        | undefined => simp [splitStep, hv]
      rw [hfst]

/-- Lookup in the `multis` output of the split fold, mirror of
`split_foldl_fst_lookup`. -/
theorem split_foldl_snd_lookup (data : List (String × ParamValue))
    (hd : (akeys data).Nodup)
    (acc : List (String × String) × List (String × List String)) (k : String) :
    alookup (data.foldl splitStep acc).2 k
      = (match alookup data k with
          | some (.list l) => some l
          | _ => none).orElse (fun _ => alookup acc.2 k) := by
  induction data generalizing acc with
  | nil => simp [alookup, Option.orElse]
  | cons p rest ih =>
    simp only [akeys, List.map_cons, List.nodup_cons] at hd
    obtain ⟨hp, hrest⟩ := hd
    simp only [List.foldl_cons]
    rw [ih hrest]
    by_cases h : p.1 = k
    · subst h
      have hnone : alookup rest p.1 = none :=
        alookup_eq_none_of_not_mem rest p.1 (by simpa [akeys] using hp)
      rw [hnone]
      simp only [alookup, if_pos rfl]
      cases hv : p.2 with
      | str s => simp [splitStep, hv, Option.orElse]
      | list l => simp [splitStep, hv, alookup_jsSet, Option.orElse]
      | undefined => simp [splitStep, hv, Option.orElse]
    · simp only [alookup, if_neg h]
      have hsnd : alookup (splitStep acc p).2 k = alookup acc.2 k := by
        cases hv : p.2 with
        | str s => simp [splitStep, hv]
        | list l =>
          simp only [splitStep, hv]
          rw [alookup_jsSet, if_neg (fun hc => h hc.symm)]
        | undefined => simp [splitStep, hv]
      rw [hsnd]

/-- The split fold keeps both outputs duplicate-free. -/
theorem split_foldl_nodup (data : List (String × ParamValue))
    (acc : List (String × String) × List (String × List String))
    (h1 : (akeys acc.1).Nodup) (h2 : (akeys acc.2).Nodup) :
    (akeys (data.foldl splitStep acc).1).Nodup ∧
      (akeys (data.foldl splitStep acc).2).Nodup := by
  induction data generalizing acc with
  | nil => exact ⟨h1, h2⟩
  | cons p rest ih =>
    simp only [List.foldl_cons]
    apply ih
    · cases hv : p.2 with
      | str s => simpa [splitStep, hv] using akeys_jsSet_nodup acc.1 p.1 s h1
      | list l => simpa [splitStep, hv] using h1
      | undefined => simpa [splitStep, hv] using h1
    · cases hv : p.2 with
      | str s => simpa [splitStep, hv] using h2
      | list l => simpa [splitStep, hv] using akeys_jsSet_nodup acc.2 p.1 l h2
      | undefined => simpa [splitStep, hv] using h2

/-- The `qsMap` component of the single-valued query fold is the plain
`jsSet` fold over its first component (the `hasQs` flag rides alongside). -/
theorem qsFoldSingle_fst (params : List (String × Option String))
    (acc : List (String × List String) × Bool) :
    (qsFoldSingle params acc).1
      = params.foldl (fun a p => jsSet a p.1 [p.2.getD ""]) acc.1 := by
  induction params generalizing acc with
  | nil => rfl
  | cons p rest ih =>
    simp only [qsFoldSingle, List.foldl_cons] at *
    exact ih (jsSet acc.1 p.1 [p.2.getD ""], true)

/-- The `qsMap` component of the multi-valued query fold is the plain
`jsSet` fold over its first component. -/
theorem qsFoldMulti_fst (params : List (String × Option (List String)))
    (acc : List (String × List String) × Bool) :
    (qsFoldMulti params acc).1
      = params.foldl (fun a p => jsSet a p.1 (p.2.getD [""])) acc.1 := by
  induction params generalizing acc with
  | nil => rfl
  | cons p rest ih =>
    simp only [qsFoldMulti, List.foldl_cons] at *
    exact ih (jsSet acc.1 p.1 (p.2.getD [""]), true)

/-- Generic characterization of a singles-then-multis pair of `jsSet` folds
from the empty object: the multi-valued entry wins on any shared key. -/
theorem alookup_merge_folds {V₁ V₂ W : Type} (f : V₁ → W) (g : V₂ → W)
    (singles : List (String × V₁)) (multis : List (String × V₂))
    (hs : (akeys singles).Nodup) (hm : (akeys multis).Nodup) (k : String) :
    alookup (multis.foldl (fun a p => jsSet a p.1 (g p.2))
        (singles.foldl (fun a p => jsSet a p.1 (f p.2)) [])) k
      = ((alookup multis k).map g).orElse
          (fun _ => (alookup singles k).map f) := by
  rw [alookup_foldl_jsSet g multis hm _ k]
  rw [alookup_foldl_jsSet f singles hs _ k]
  cases alookup multis k with
  | some mv => simp [Option.orElse]
  | none =>
    cases alookup singles k with
    | some sv => simp [Option.orElse]
    | none => simp [Option.orElse, alookup]

/-! ## Claims -/

/-- **C1.** The claim states that `initialize` serializes the merged query
view as `?key=value&...`, with one `k=vi` pair per value.  The code instead
maps each value through `encodeURIComponent` alone, never emitting the
`key=` prefix: an event with single-valued query parameter `foo=bar` yields
the query string `"?bar"` (not `"?foo=bar"`), a multi-valued `a=[1,2]`
yields `"?1&2"`, and the path handed to the engine becomes
`"/accounts/123?bar"`.  Events with no query parameters do append no query
string, as claimed. -/
theorem c1_query_serialization_drops_keys :
    buildQueryString (some [("foo", some "bar")]) none = "?bar" ∧
    buildQueryString (some [("foo", some "bar")]) none ≠ "?foo=bar" ∧
    buildQueryString none (some [("a", some ["1", "2"])]) = "?1&2" ∧
    (makeRequestDescriptor "get" "/accounts/123"
        (buildQueryString (some [("foo", some "bar")]) none) [] none).path
      = "/accounts/123?bar" ∧
    buildQueryString none none = "" ∧
    buildQueryString (some []) (some []) = "" := by
  refine ⟨rfl, ?_, rfl, rfl, rfl, rfl⟩
  decide

/-- **C2.** The claim states that the cached registration is marked
`processed` exactly when the ancestor-chain walk finds a controller name.
In the code `registered.processed` is never assigned: the resolution step
returns the flag it was given, so even an operation whose walk succeeds
(here `x-controller: accounts` on the enclosing path item and
`x-operation: getAccount` on the operation) is left with
`processed = false`, and the `if (!registered.processed)` guard re-runs the
walk on every invocation. -/
theorem c2_processed_flag_never_set :
    (∀ xOperationKey xControllerKey op registered,
        (resolveRegistration xOperationKey xControllerKey op registered).processed
          = registered.processed) ∧
    resolveRegistration "x-operation" "x-controller"
        { props := [("x-operation", "getAccount")], operationId := none,
          ancestors := [[("x-controller", "accounts")], []] }
        { xController := "", xOperation := "", processed := false }
      = { xController := "accounts", xOperation := "getAccount", processed := false } := by
  constructor
  · intro xOperationKey xControllerKey op registered
    by_cases h : registered.processed <;> simp [resolveRegistration, h]
  · rfl

/-- **C3, counterexample.** The round-trip claim quantifies over mappings
whose values may be `undefined`; `split` drops an `undefined`-valued key from
both outputs, so `merge (split m)` loses the key: for `m = {a: undefined}`
the reconstruction is the empty mapping. -/
theorem c3_roundtrip_counterexample :
    mergeMultiValueParameters
        (toSingles (splitMultiValueParameters [("a", ParamValue.undefined)]).1)
        (toMultis (splitMultiValueParameters [("a", ParamValue.undefined)]).2) = [] ∧
    alookup [("a", ParamValue.undefined)] "a" = some ParamValue.undefined ∧
    akeys ([("a", ParamValue.undefined)] : List (String × ParamValue)) = ["a"] := by
  refine ⟨rfl, ?_, rfl⟩
  simp [alookup]

/-- **C3, amended.** For every `MergedParameters` mapping `m` (duplicate-free
keys, as on any JS object) in which every value is a string or a list —
i.e. no key maps to `undefined` — `merge (split m)` reconstructs `m`
exactly: every key resolves to its original value (scalar stays scalar,
sequence stays the same ordered sequence), and the key sets agree. -/
theorem c3_split_merge_roundtrip (m : List (String × ParamValue))
    (hm : (akeys m).Nodup) (hshape : ∀ p ∈ m, p.2 ≠ ParamValue.undefined) :
    (∀ k, alookup (mergeMultiValueParameters
        (toSingles (splitMultiValueParameters m).1)
        (toMultis (splitMultiValueParameters m).2)) k = alookup m k) ∧
    (∀ k, k ∈ akeys (mergeMultiValueParameters
        (toSingles (splitMultiValueParameters m).1)
        (toMultis (splitMultiValueParameters m).2)) ↔ k ∈ akeys m) := by
  have hsplit := split_foldl_nodup m ([], []) (by simp [akeys]) (by simp [akeys])
  have hs : (akeys (toSingles (splitMultiValueParameters m).1)).Nodup := by
    unfold toSingles
    rw [akeys_map_value]
    exact hsplit.1
  have hmu : (akeys (toMultis (splitMultiValueParameters m).2)).Nodup := by
    unfold toMultis
    rw [akeys_map_value]
    exact hsplit.2
  have hlook : ∀ k, alookup (mergeMultiValueParameters
      (toSingles (splitMultiValueParameters m).1)
      (toMultis (splitMultiValueParameters m).2)) k = alookup m k := by
    intro k
    rw [alookup_mergeMultiValueParameters _ _ hs hmu]
    unfold toSingles toMultis
    rw [alookup_map_value, alookup_map_value]
    unfold splitMultiValueParameters
    rw [split_foldl_fst_lookup m hm ([], []) k, split_foldl_snd_lookup m hm ([], []) k]
    cases hv : alookup m k with
    | none => simp [alookup, Option.orElse]
    | some v =>
      cases v with
      | str s => simp [alookup, Option.orElse, ofSingle]
      | list l => simp [alookup, Option.orElse, ofMulti]
      | undefined => exact absurd rfl (hshape _ (alookup_mem m k _ hv))
  refine ⟨hlook, fun k => ?_⟩
  rw [← alookup_isSome_iff, ← alookup_isSome_iff, hlook k]

/-- **C3, witness.** The amended round trip evaluated on the concrete
mapping `{a: "x", b: ["1","2"]}`. -/
theorem c3_split_merge_roundtrip_witness :
    alookup (mergeMultiValueParameters
        (toSingles (splitMultiValueParameters
          [("a", ParamValue.str "x"), ("b", ParamValue.list ["1", "2"])]).1)
        (toMultis (splitMultiValueParameters
          [("a", ParamValue.str "x"), ("b", ParamValue.list ["1", "2"])]).2)) "b"
      = alookup [("a", ParamValue.str "x"), ("b", ParamValue.list ["1", "2"])] "b" ∧
    alookup (mergeMultiValueParameters
        (toSingles (splitMultiValueParameters
          [("a", ParamValue.str "x"), ("b", ParamValue.list ["1", "2"])]).1)
        (toMultis (splitMultiValueParameters
          [("a", ParamValue.str "x"), ("b", ParamValue.list ["1", "2"])]).2)) "c"
      = alookup [("a", ParamValue.str "x"), ("b", ParamValue.list ["1", "2"])] "c" :=
  ⟨(c3_split_merge_roundtrip
      [("a", ParamValue.str "x"), ("b", ParamValue.list ["1", "2"])]
      (by decide) (by decide)).1 "b",
   (c3_split_merge_roundtrip
      [("a", ParamValue.str "x"), ("b", ParamValue.list ["1", "2"])]
      (by decide) (by decide)).1 "c"⟩

/-- **C4.** The claim states that after `cookie('a','1')` and
`cookie('b','2')`, `clearCookie('a')` removes the first of the two
`set-cookie` entries.  The code serializes cookies as `name + ':' + value`
but `clearCookie` searches for entries starting with `name + '='`, so the
search never matches an entry appended by `cookie` and nothing is removed:
both entries survive. -/
theorem c4_clearCookie_removes_nothing :
    clearCookieCall
        (cookieCall (cookieCall [] "a" (SendVal.str "1") none) "b" (SendVal.str "2") none)
        "a"
      = [("set-cookie", ["a:1; path=/", "b:2; path=/"])] ∧
    clearCookieCall
        (cookieCall (cookieCall [] "a" (SendVal.str "1") none) "b" (SendVal.str "2") none)
        "a"
      ≠ [("set-cookie", ["b:2; path=/"])] := by
  decide

/-- **C5.** Every pair-merge performed per invocation copies the
single-valued map first and then lets the multi-valued map overwrite on
conflict, so a key present in both resolves to the multi-valued entry and a
key absent from the multi-valued map to its single-valued entry.  This holds
for all three merges of `initialize`: the header merge
(`mergeMultiValueParameters`, line 418), the inline `qsMap` query merge used
for the serialized query string (lines 355-374), and the inline `query`
object merge exposed as `req.query` (same loops). -/
theorem c5_merge_multi_wins :
    (∀ (singles : List (String × Option String))
        (multis : List (String × Option (List String))),
        (akeys singles).Nodup → (akeys multis).Nodup → ∀ k : String,
        (∀ mv, alookup multis k = some mv →
          alookup (mergeMultiValueParameters singles multis) k = some (ofMulti mv)) ∧
        (alookup multis k = none →
          alookup (mergeMultiValueParameters singles multis) k
            = (alookup singles k).map ofSingle)) ∧
    (∀ (singles : List (String × Option String))
        (multis : List (String × Option (List String))),
        (akeys singles).Nodup → (akeys multis).Nodup → ∀ k : String,
        (∀ mv, alookup multis k = some mv →
          alookup (qsFoldMulti multis (qsFoldSingle singles ([], false))).1 k
            = some (mv.getD [""])) ∧
        (alookup multis k = none →
          alookup (qsFoldMulti multis (qsFoldSingle singles ([], false))).1 k
            = (alookup singles k).map (fun v => [v.getD ""]))) ∧
    (∀ (singles : List (String × Option String))
        (multis : List (String × Option (List String))),
        (akeys singles).Nodup → (akeys multis).Nodup → ∀ k : String,
        (∀ mv, alookup multis k = some mv →
          alookup (queryFoldMulti multis (queryFoldSingle singles [])) k
            = some (ParamValue.list (mv.getD [""]))) ∧
        (alookup multis k = none →
          alookup (queryFoldMulti multis (queryFoldSingle singles [])) k
            = (alookup singles k).map (fun v => ParamValue.str (v.getD "")))) := by
  refine ⟨?_, ?_, ?_⟩
  · intro singles multis hs hm k
    constructor
    · intro mv hmv
      rw [alookup_mergeMultiValueParameters singles multis hs hm k, hmv]
      simp [Option.orElse]
    · intro hnone
      rw [alookup_mergeMultiValueParameters singles multis hs hm k, hnone]
      simp [Option.orElse]
  · intro singles multis hs hm k
    have hchar : alookup (qsFoldMulti multis (qsFoldSingle singles ([], false))).1 k
        = ((alookup multis k).map (fun ov => ov.getD [""])).orElse
            (fun _ => (alookup singles k).map (fun ov => [ov.getD ""])) := by
      rw [qsFoldMulti_fst, qsFoldSingle_fst]
      exact alookup_merge_folds (fun ov => [ov.getD ""]) (fun ov => ov.getD [""])
        singles multis hs hm k
    constructor
    · intro mv hmv
      rw [hchar, hmv]
      simp [Option.orElse]
    · intro hnone
      rw [hchar, hnone]
      simp [Option.orElse]
  · intro singles multis hs hm k
    have hchar : alookup (queryFoldMulti multis (queryFoldSingle singles [])) k
        = ((alookup multis k).map (fun ov => ParamValue.list (ov.getD [""]))).orElse
            (fun _ => (alookup singles k).map (fun ov => ParamValue.str (ov.getD ""))) := by
      unfold queryFoldMulti queryFoldSingle
      exact alookup_merge_folds (fun ov => ParamValue.str (ov.getD ""))
        (fun ov => ParamValue.list (ov.getD [""])) singles multis hs hm k
    constructor
    · intro mv hmv
      rw [hchar, hmv]
      simp [Option.orElse]
    · intro hnone
      rw [hchar, hnone]
      simp [Option.orElse]

/-- **C5, witness.** On the key `a`, present in both views as `"s"` (single)
and `["x","y"]` (multi), all three per-invocation merges resolve to the
multi-valued entry. -/
theorem c5_merge_multi_wins_witness :
    alookup (mergeMultiValueParameters [("a", some "s")] [("a", some ["x", "y"])]) "a"
      = some (ParamValue.list ["x", "y"]) ∧
    alookup (qsFoldMulti [("a", some ["x", "y"])]
        (qsFoldSingle [("a", some "s")] ([], false))).1 "a" = some ["x", "y"] ∧
    alookup (queryFoldMulti [("a", some ["x", "y"])]
        (queryFoldSingle [("a", some "s")] [])) "a"
      = some (ParamValue.list ["x", "y"]) :=
  ⟨(c5_merge_multi_wins.1 [("a", some "s")] [("a", some ["x", "y"])]
      (by decide) (by decide) "a").1 (some ["x", "y"]) (by simp [alookup]),
   (c5_merge_multi_wins.2.1 [("a", some "s")] [("a", some ["x", "y"])]
      (by decide) (by decide) "a").1 (some ["x", "y"]) (by simp [alookup]),
   (c5_merge_multi_wins.2.2 [("a", some "s")] [("a", some ["x", "y"])]
      (by decide) (by decide) "a").1 (some ["x", "y"]) (by simp [alookup])⟩

theorem string_append_assoc (a b c : String) : a ++ b ++ c = a ++ (b ++ c) := by
  cases a with
  | mk da =>
    cases b with
    | mk db =>
      cases c with
      | mk dc => exact congrArg String.mk (List.append_assoc da db dc)

/-- **C6.** Every error raised at any step inside the produced lambda is
caught once at the outer boundary and converted by `sendErrorResponse`
(`handlerInvoke` is a total function, so no error escapes as a rejection):
an `EnforcerStatusError` yields its declared code with its `toString()` text
as body, and any other error (router errors included) yields the fixed
`500 / 'Internal server error'` result, independent of the internal
message. -/
theorem c6_error_boundary :
    (∀ (e : Err) (business : ResponseResult → Except Err ResponseResult)
        (rp : Nat → Option SendVal → List (String × HVal) →
          Except String (List (String × HVal))),
        (handlerInvoke (.error e) business rp).1 = sendErrorResponse e) ∧
    (∀ (e : Err) (r0 : ResponseResult)
        (business : ResponseResult → Except Err ResponseResult)
        (rp : Nat → Option SendVal → List (String × HVal) →
          Except String (List (String × HVal))),
        business r0 = .error e →
        (handlerInvoke (.ok r0) business rp).1 = sendErrorResponse e) ∧
    (∀ (e : Err) (r0 r1 : ResponseResult)
        (business : ResponseResult → Except Err ResponseResult)
        (rp : Nat → Option SendVal → List (String × HVal) →
          Except String (List (String × HVal))),
        business r0 = .ok r1 → sendValidResponse rp r1 = .error e →
        (handlerInvoke (.ok r0) business rp).1 = sendErrorResponse e) ∧
    (∀ (c : Nat) (m : String),
        (sendErrorResponse (.statusError c m)).statusCode = c ∧
        (sendErrorResponse (.statusError c m)).body = errToString (.statusError c m)) ∧
    (∀ e : Err, (∀ c m, e ≠ .statusError c m) →
        sendErrorResponse e
          = { statusCode := 500, headers := [("content", HVal.str "text/plain")],
              isBase64Encoded := false, multiValueHeaders := [],
              body := "Internal server error" }) := by
  refine ⟨?_, ?_, ?_, ?_, ?_⟩
  · intro e business rp
    rfl
  · intro e r0 business rp h
    simp only [handlerInvoke]
    rw [h]
  · intro e r0 r1 business rp hb hv
    have hstep : handlerInvoke (.ok r0) business rp
        = match sendValidResponse rp r1 with
          | .error e => (sendErrorResponse e, 1)
          | .ok res => (res, 1) := by
      simp only [handlerInvoke]
      rw [hb]
    rw [hstep, hv]
  · intro c m
    exact ⟨rfl, rfl⟩
  · intro e h
    cases e with
    | statusError c m => exact absurd rfl (h c m)
    | routerError c m => rfl
    | other m => rfl

/-- **C6, witness.** The boundary conversion evaluated on concrete errors:
an initialization failure with a generic error produces the fixed
`'Internal server error'` 500, and a handler throwing
`EnforcerStatusError(404, 'not found')` produces that error's rendering. -/
theorem c6_error_boundary_witness :
    (handlerInvoke (.error (.other "boom")) (fun r => .ok r)
        (fun _ _ _ => .ok [])).1 = sendErrorResponse (.other "boom") ∧
    sendErrorResponse (.other "boom")
      = { statusCode := 500, headers := [("content", HVal.str "text/plain")],
          isBase64Encoded := false, multiValueHeaders := [],
          body := "Internal server error" } ∧
    (handlerInvoke (.ok initialResponseResult)
        (fun _ => .error (.statusError 404 "not found"))
        (fun _ _ _ => .ok [])).1 = sendErrorResponse (.statusError 404 "not found") :=
  ⟨c6_error_boundary.1 (.other "boom") (fun r => .ok r) (fun _ _ _ => .ok []),
   c6_error_boundary.2.2.2.2 (.other "boom") (fun _ _ hEq => Err.noConfusion hEq),
   c6_error_boundary.2.1 (.statusError 404 "not found") initialResponseResult
     (fun _ => .error (.statusError 404 "not found")) (fun _ _ _ => .ok []) rfl⟩

/-- **C7.** When the engine's bound outbound-validation function reports an
error for the collected response, the invocation yields a 500 result whose
body wraps the engine message as `'Invalid response: <message>'` (rendered
through `EnforcerStatusError.toString`), and the business handler has run
exactly once before the failure is raised. -/
theorem c7_invalid_response_is_500 (r0 r1 : ResponseResult)
    (business : ResponseResult → Except Err ResponseResult)
    (rp : Nat → Option SendVal → List (String × HVal) →
      Except String (List (String × HVal)))
    (msg : String)
    (hb : business r0 = .ok r1)
    (hv : rp r1.statusCode r1.body r1.headers = .error msg) :
    (handlerInvoke (.ok r0) business rp).1.statusCode = 500 ∧
    (handlerInvoke (.ok r0) business rp).1.body
      = "StatusError 500: Invalid response: " ++ msg ∧
    (handlerInvoke (.ok r0) business rp).2 = 1 := by
  have hsend : sendValidResponse rp r1
      = .error (.statusError 500 ("Invalid response: " ++ msg)) := by
    unfold sendValidResponse
    rw [hv]
  have hstep : handlerInvoke (.ok r0) business rp
      = match sendValidResponse rp r1 with
        | .error e => (sendErrorResponse e, 1)
        | .ok res => (res, 1) := by
    simp only [handlerInvoke]
    rw [hb]
  have hrun : handlerInvoke (.ok r0) business rp
      = (sendErrorResponse (.statusError 500 ("Invalid response: " ++ msg)), 1) := by
    rw [hstep, hsend]
  rw [hrun]
  refine ⟨rfl, ?_, rfl⟩
  show errToString (.statusError 500 ("Invalid response: " ++ msg)) = _
  calc errToString (.statusError 500 ("Invalid response: " ++ msg))
      = "StatusError 500: " ++ ("Invalid response: " ++ msg) := rfl
    _ = "StatusError 500: " ++ "Invalid response: " ++ msg :=
        (string_append_assoc _ _ _).symm
    _ = "StatusError 500: Invalid response: " ++ msg := rfl

/-- **C7, witness.** A concrete invocation whose handler succeeds but whose
response fails outbound validation with message `"bad"`. -/
theorem c7_invalid_response_is_500_witness :
    (handlerInvoke (.ok initialResponseResult) (fun r => .ok r)
        (fun _ _ _ => .error "bad")).1.statusCode = 500 ∧
    (handlerInvoke (.ok initialResponseResult) (fun r => .ok r)
        (fun _ _ _ => .error "bad")).1.body
      = "StatusError 500: Invalid response: " ++ "bad" ∧
    (handlerInvoke (.ok initialResponseResult) (fun r => .ok r)
        (fun _ _ _ => .error "bad")).2 = 1 :=
  c7_invalid_response_is_500 initialResponseResult initialResponseResult
    (fun r => .ok r) (fun _ _ _ => .error "bad") "bad" rfl rfl

/-- **C8.** The claim states that a body with a content type that has
neither a built-in codec nor a caller-supplied `bodyParser` passes through
unchanged into the request descriptor.  In the code the local `body`
variable is only ever assigned inside the three codec branches, so in this
case it stays `undefined` and the spread
`...(body !== undefined ? { body } : {})` omits the body from the
descriptor entirely — e.g. a `text/plain` body `"hello"` is dropped rather
than passed through. -/
theorem c8_unknown_content_type_drops_body :
    (∀ (jsonParse : String → Option Json) (qsParse : String → Json)
        (headers : Option (List (String × Option String))) (raw ct : String),
        getContentTypeFromHeaders headers = some ct →
        ct ≠ "application/json" → ct ≠ "application/x-www-form-urlencoded" →
        parseBody jsonParse qsParse none headers (some raw) = .ok none) ∧
    parseBody (fun _ => none) (fun s => Json.str s) none
        (some [("content-type", some "text/plain")]) (some "hello") = .ok none ∧
    (makeRequestDescriptor "post" "/accounts/123/messages" "" [] none).body = none := by
  refine ⟨?_, rfl, rfl⟩
  intro jsonParse qsParse headers raw ct hct h1 h2
  simp [parseBody, hct, h1, h2]

/-- **C8, witness.** The general part evaluated at an `application/xml`
body with no registered `bodyParser`. -/
theorem c8_unknown_content_type_drops_body_witness :
    parseBody (fun _ => none) (fun s => Json.str s) none
        (some [("content-type", some "application/xml")]) (some "<a/>") = .ok none :=
  c8_unknown_content_type_drops_body.1 (fun _ => none) (fun s => Json.str s)
    (some [("content-type", some "application/xml")]) "<a/>" "application/xml"
    rfl (by decide) (by decide)

/-- **C9.** `res.send` semantics and final body serialization: a fresh
accumulator has an unset body; `send()` with zero arguments leaves the
accumulator unchanged; `send(x)` with any argument (including an explicit
`undefined`) writes the body field; and on outbound-validation success the
result body is `''` for an unset body, `JSON.stringify` of an object body,
and a string body unchanged. -/
theorem c9_send_and_body_serialization :
    initialResponseResult.body = none ∧
    (∀ r : ResponseResult, sendCall r none = r) ∧
    (∀ (r : ResponseResult) (d : Option SendVal), (sendCall r (some d)).body = d) ∧
    (∀ (rp : Nat → Option SendVal → List (String × HVal) →
          Except String (List (String × HVal)))
        (r : ResponseResult) (hs : List (String × HVal)),
        rp r.statusCode r.body r.headers = .ok hs →
        sendValidResponse rp r
          = .ok { statusCode := r.statusCode, headers := hs,
                  isBase64Encoded := false, multiValueHeaders := r.multiValueHeaders,
                  body := serializeResultBody r.body }) ∧
    serializeResultBody none = "" ∧
    (∀ j : Json, serializeResultBody (some (.obj j)) = jsonStringify j) ∧
    (∀ s : String, serializeResultBody (some (.str s)) = s) := by
  refine ⟨rfl, ?_, ?_, ?_, rfl, fun j => rfl, fun s => rfl⟩
  · intro r
    rfl
  · intro r d
    rfl
  · intro rp r hs h
    unfold sendValidResponse
    rw [h]

/-- **C9, witness.** The success-path serialization evaluated on a fresh
accumulator (unset body becomes `''`) after a zero-argument `send`. -/
theorem c9_send_and_body_serialization_witness :
    sendCall initialResponseResult none = initialResponseResult ∧
    (sendCall initialResponseResult (some (some (SendVal.str "x")))).body
      = some (SendVal.str "x") ∧
    sendValidResponse (fun _ _ _ => .ok []) initialResponseResult
      = .ok { statusCode := 200, headers := [], isBase64Encoded := false,
              multiValueHeaders := [], body := serializeResultBody none } :=
  ⟨c9_send_and_body_serialization.2.1 initialResponseResult,
   c9_send_and_body_serialization.2.2.1 initialResponseResult (some (SendVal.str "x")),
   c9_send_and_body_serialization.2.2.2.1 (fun _ _ _ => .ok [])
     initialResponseResult [] rfl⟩

/-- **C10.** Both branches of `sendErrorResponse` produce a single-valued
header map containing exactly the one key `content` mapped to `text/plain`
(in particular no `content-type` header), an empty multi-valued header map,
and `isBase64Encoded = false`. -/
theorem c10_error_response_headers (e : Err) :
    (sendErrorResponse e).headers = [("content", HVal.str "text/plain")] ∧
    alookup (sendErrorResponse e).headers "content-type" = none ∧
    (sendErrorResponse e).multiValueHeaders = [] ∧
    (sendErrorResponse e).isBase64Encoded = false := by
  have hct : alookup [("content", HVal.str "text/plain")] "content-type" = none := by
    decide
  cases e <;> exact ⟨rfl, hct, rfl, rfl⟩

end EnforcerLambda
